import Mathlib

/-!
Verification of the aos core library: bounded arrays, time arithmetic,
the instance-registry storage, status-batch comparison, and the launcher
reconciliation rounds, shallowly embedded from the C++ sources.
-/

/-- Error kinds (`aos::ErrorEnum`). -/
inductive ErrorEnum where
  | eNone
  | eNotFound
  | eAlreadyExist
  | eNoMemory
  | eOutOfRange
  | eInvalidArgument
deriving DecidableEq

/-- Mirrors `Error::IsNone()`. -/
def ErrorEnum.IsNone : ErrorEnum → Bool
  | .eNone => true
  | _ => false

/-- Mirrors `RetWithError<T>`: a value together with an error code. -/
structure RetWithError (α : Type) where
  mValue : α
  mError : ErrorEnum
deriving DecidableEq

/-- Shallow embedding of `aos::Array<T>`: `mItems` is the backing buffer
(one entry per allocated slot, so the declared capacity is `mItems.length`),
`mSize` is the current element count.  Slots at positions `≥ mSize` hold
whatever junk the buffer holds. -/
structure AosArray (α : Type) where
  mItems : List α
  mSize : Nat
deriving DecidableEq

namespace AosArray

/-- `Array::Size()`. -/
def Size (a : AosArray α) : Nat := a.mSize

/-- `Array::MaxSize()`: the capacity bound of the backing buffer. -/
def MaxSize (a : AosArray α) : Nat := a.mItems.length

/-- `Array::IsEmpty()`. -/
def IsEmpty (a : AosArray α) : Bool := a.mSize == 0

/-- `Array::IsFull()`: `mSize == mMaxSize`. -/
def IsFull (a : AosArray α) : Bool := a.mSize == a.MaxSize

/-- `Array::PushBack(item)`: fails with `eNoMemory` when full, otherwise
writes `item` into the slot at the former end and increments the size. -/
def PushBack (a : AosArray α) (item : α) : AosArray α × ErrorEnum :=
  if a.IsFull then (a, .eNoMemory)
  else ({ mItems := a.mItems.set a.mSize item, mSize := a.mSize + 1 }, .eNone)

/-- `Array::At(index)`: bounds-checked access; the returned pointer is
modelled as the optional element value. -/
def At (a : AosArray α) (index : Nat) : Option α × ErrorEnum :=
  if index ≥ a.mSize then (none, .eOutOfRange)
  else (a.mItems[index]?, .eNone)

/-- `Array::PopBack()`: embedded exactly as written in the source.  The
source checks `IsEmpty()` but the statement `RetWithError<T>(T(), eNotFound);`
lacks a `return`, so the check has no effect: control always falls through
to `result(mItems[mSize - 1], eNone); mSize--;`.  `mSize` is a `size_t`,
so `mSize - 1` wraps modulo `2^64`; the out-of-bounds read is modelled
with `getD` (default value for a read outside the buffer) and the final
`memset(end(), 0, sizeof(T))` as a `set` with the zero value, which is a
no-op when the new end lies outside the buffer. -/
def PopBack [Inhabited α] (a : AosArray α) : AosArray α × RetWithError α :=
  let idx := (a.mSize + 2 ^ 64 - 1) % 2 ^ 64
  let value := a.mItems.getD idx default
  ({ mItems := a.mItems.set idx default, mSize := idx }, ⟨value, .eNone⟩)

/-- `Array::Resize(size, value)`: embedded exactly as written in the
source.  When growing, the loop body is `memcpy(end(), &value, sizeof(T))`:
it copies `value` to `end()` (the slot at position `mSize`) on every
iteration instead of to the loop iterator, so only the single slot at the
old size receives `value`; the remaining new slots keep the buffer junk. -/
def Resize (a : AosArray α) (size : Nat) (value : α) : AosArray α × ErrorEnum :=
  if size > a.MaxSize then (a, .eNoMemory)
  else
    ({ mItems := if size > a.mSize then a.mItems.set a.mSize value else a.mItems,
       mSize := size }, .eNone)

end AosArray

/-- Duration in nanoseconds (`aos::Duration = int64_t`), embedded as an
exact integer. -/
def Nanoseconds : Int := 1

/-- `Time::Microseconds`. -/
def Microseconds : Int := 1000 * Nanoseconds

/-- `Time::Milliseconds`. -/
def Milliseconds : Int := 1000 * Microseconds

/-- `Time::Seconds`. -/
def Seconds : Int := 1000 * Milliseconds

/-- `aos::Time` wraps a `timespec`; both fields are embedded as exact
integers. -/
structure Time where
  tv_sec : Int
  tv_nsec : Int
deriving DecidableEq

/-- `Time::Add(duration)`: `nsec = tv_nsec + duration`, then C++ truncated
division/remainder by `Seconds` (`Int.tdiv`/`Int.tmod`), then the explicit
correction when the remainder is negative. -/
def Time.Add (t : Time) (duration : Int) : Time :=
  let nsec : Int := t.tv_nsec + duration
  let sec : Int := t.tv_sec + nsec.tdiv Seconds
  let rem : Int := nsec.tmod Seconds
  if rem < 0 then ⟨sec - 1, rem + Seconds⟩ else ⟨sec, rem⟩

/-- `aos::InstanceIdent {serviceID, subjectID, instance}`; equality is
structural over all three fields. -/
structure InstanceIdent where
  mServiceID : String
  mSubjectID : String
  mInstance : Nat
deriving DecidableEq

/-- `aos::InstanceInfo`: the desired-state record persisted in the
registry. -/
structure InstanceInfo where
  mInstanceIdent : InstanceIdent
  mUID : Nat
  mGID : Nat
  mStoragePath : String
  mStatePath : String
deriving DecidableEq

/-- `aos::VersionInfo {versionID, versionString, description}`. -/
structure VersionInfo where
  mVersionID : Nat
  mVersionStr : String
  mDescription : String
deriving DecidableEq

/-- `aos::ServiceInfo` restricted to the fields the reconciliation logic
reads (version info, service id, provider id). -/
structure ServiceInfo where
  mVersionInfo : VersionInfo
  mServiceID : String
  mProviderID : String
deriving DecidableEq

/-- `aos::sm::servicemanager::ServiceData`: an installed-service record
with a resolved on-device image path. -/
structure ServiceData where
  mVersionInfo : VersionInfo
  mServiceID : String
  mProviderID : String
  mImagePath : String
deriving DecidableEq

/-- `aos::InstanceRunState` values reached in a reconciliation round. -/
inductive InstanceRunState where
  | eActive
  | eFailed
deriving DecidableEq

/-- `aos::InstanceStatus {InstanceIdent, serviceVersionID, runState, error}`. -/
structure InstanceStatus where
  mInstanceIdent : InstanceIdent
  mServiceVersionID : Nat
  mRunState : InstanceRunState
  mError : ErrorEnum
deriving DecidableEq

/-- Modelled from the spec: `InstanceStatus::operator==` is not under
`src/`; per §4.1 "InstanceStatus equality for comparison purposes is
defined by identity match only (error/state differences are reported, not
used as an equality key in set comparisons)". -/
def InstanceStatus.eq (a b : InstanceStatus) : Bool :=
  a.mInstanceIdent == b.mInstanceIdent

/-- `MockStorage::AddInstance`: refuses with `eAlreadyExist` when a record
with the same `InstanceIdent` is already stored, otherwise appends the
record (`std::vector::push_back`). -/
def AddInstance (st : List InstanceInfo) (inst : InstanceInfo) :
    List InstanceInfo × ErrorEnum :=
  if st.any (fun info => inst.mInstanceIdent == info.mInstanceIdent) then
    (st, .eAlreadyExist)
  else
    (st ++ [inst], .eNone)

/-- Helper for `UpdateInstance`: `std::find_if` followed by `*it = instance`
replaces the first record whose identity matches; `none` when no record
matches. -/
def ReplaceFirst (inst : InstanceInfo) : List InstanceInfo → Option (List InstanceInfo)
  | [] => none
  | info :: rest =>
    if inst.mInstanceIdent == info.mInstanceIdent then some (inst :: rest)
    else (ReplaceFirst inst rest).map (info :: ·)

/-- `MockStorage::UpdateInstance`: replaces the first record with the same
`InstanceIdent`, or fails with `eNotFound`. -/
def UpdateInstance (st : List InstanceInfo) (inst : InstanceInfo) :
    List InstanceInfo × ErrorEnum :=
  match ReplaceFirst inst st with
  | some st2 => (st2, .eNone)
  | none => (st, .eNotFound)

/-- Helper for `RemoveInstance`: `std::find_if` followed by `erase` removes
the first record whose identity matches; `none` when no record matches. -/
def RemoveFirst (ident : InstanceIdent) : List InstanceInfo → Option (List InstanceInfo)
  | [] => none
  | info :: rest =>
    if info.mInstanceIdent == ident then some rest
    else (RemoveFirst ident rest).map (info :: ·)

/-- `MockStorage::RemoveInstance`: erases the first record with the given
`InstanceIdent`, or fails with `eNotFound`. -/
def RemoveInstance (st : List InstanceInfo) (ident : InstanceIdent) :
    List InstanceInfo × ErrorEnum :=
  match RemoveFirst ident st with
  | some st2 => (st2, .eNone)
  | none => (st, .eNotFound)

/-- States of the `MockStorage` instance registry reachable from the empty
registry through `AddInstance`/`UpdateInstance`/`RemoveInstance`. -/
inductive ReachableRegistry : List InstanceInfo → Prop where
  | init : ReachableRegistry []
  | add (st : List InstanceInfo) (inst : InstanceInfo) :
      ReachableRegistry st → ReachableRegistry (AddInstance st inst).1
  | update (st : List InstanceInfo) (inst : InstanceInfo) :
      ReachableRegistry st → ReachableRegistry (UpdateInstance st inst).1
  | remove (st : List InstanceInfo) (ident : InstanceIdent) :
      ReachableRegistry st → ReachableRegistry (RemoveInstance st ident).1

/-- The registry invariant: at most one stored record per `InstanceIdent`. -/
def RegistryUnique (st : List InstanceInfo) : Prop :=
  (st.map (fun info => info.mInstanceIdent)).Nodup

/-- `Array<InstanceStatus>::Find(item)`: scans the elements from `begin()`
to `end()` (the first `mSize` slots) comparing with `InstanceStatus`
equality, returning `eNotFound` when no element matches. -/
def FindStatus (a : AosArray InstanceStatus) (item : InstanceStatus) :
    Option InstanceStatus × ErrorEnum :=
  match (a.mItems.take a.mSize).find? (fun x => InstanceStatus.eq x item) with
  | some x => (some x, .eNone)
  | none => (none, .eNotFound)

/-- Wraps a list as the `Array<T>(data, size)` view the test builds over a
`std::vector`: size and capacity both equal the list length. -/
def AosArray.ofList (l : List α) : AosArray α := ⟨l, l.length⟩

/-- `CompareInstanceStatuses(status1, status2)`: equal sizes, then each
early-return loop demands that every entry of one batch is found in the
other. -/
def CompareInstanceStatuses (status1 status2 : AosArray InstanceStatus) : Bool :=
  decide (status1.Size = status2.Size)
    && (status1.mItems.take status1.mSize).all
        (fun inst => ((FindStatus status2 inst).2).IsNone)
    && (status2.mItems.take status2.mSize).all
        (fun inst => ((FindStatus status1 inst).2).IsNone)

/-- `FS::JoinPath` as used by the mock service manager. -/
def JoinPath (a b : String) : String := a ++ "/" ++ b

/-- `MockServiceManager::InstallServices`: clears the installed set and
derives one `ServiceData` per submitted `ServiceInfo`, with the image path
under `/aos/storages`. -/
def InstallServices (services : List ServiceInfo) : List ServiceData :=
  services.map (fun s =>
    ⟨s.mVersionInfo, s.mServiceID, s.mProviderID, JoinPath "/aos/storages" s.mServiceID⟩)

/-- `MockServiceManager::GetService`: first installed record with the given
service id, `none` (↦ `eNotFound`) otherwise. -/
def GetService (svcs : List ServiceData) (serviceID : String) : Option ServiceData :=
  svcs.find? (fun s => s.mServiceID == serviceID)

/-- Modelled from the spec: the `Launcher` implementation is not under
`src/`.  Its observable state per §4.3–§4.4 is the installed-service set
held by the service manager and the instance registry. -/
structure LauncherState where
  mServices : List ServiceData
  mRegistry : List InstanceInfo
deriving DecidableEq

/-- Modelled from the spec: resolving and starting one desired instance
(§4.4 step 4, with the collaborator mocks of the test, whose runner and
OCI codec always succeed).  A resolvable service yields `eActive` at the
installed version; otherwise the instance reports `eFailed` with
`eNotFound`. -/
def StatusOf (svcs : List ServiceData) (info : InstanceInfo) : InstanceStatus :=
  match GetService svcs info.mInstanceIdent.mServiceID with
  | some s => ⟨info.mInstanceIdent, s.mVersionInfo.mVersionID, .eActive, .eNone⟩
  | none => ⟨info.mInstanceIdent, 0, .eFailed, .eNotFound⟩

/-- Modelled from the spec: whether a desired instance's bound service is
installed (§4.4 step 4 succeeds under the test mocks exactly when
`GetService` resolves). -/
def Resolvable (svcs : List ServiceData) (info : InstanceInfo) : Bool :=
  (GetService svcs info.mInstanceIdent.mServiceID).isSome

/-- Modelled from the spec: the bound service version id of an identity
against an installed-service set (§4.4 step 2's "bound service
versionID"), `none` when the service is not installed there. -/
def BoundVersion (svcs : List ServiceData) (ident : InstanceIdent) : Option Nat :=
  (GetService svcs ident.mServiceID).map (fun s => s.mVersionInfo.mVersionID)

/-- Modelled from the spec: §4.4 step 2's "Unchanged" set — a desired
instance already present in the current set whose bound service version
(the one it is running at, resolved against the services installed before
this round) is identical to the newly desired one.  Such instances are
left untouched and no status event is emitted for them in this round; any
version mismatch (or a missing binding on either side) puts the instance
into ToStart instead. -/
def Unchanged (oldSvcs newSvcs : List ServiceData) (current : List InstanceInfo)
    (info : InstanceInfo) : Bool :=
  current.any (fun c => c.mInstanceIdent == info.mInstanceIdent) &&
    match BoundVersion oldSvcs info.mInstanceIdent,
        BoundVersion newSvcs info.mInstanceIdent with
    | some vOld, some vNew => vOld == vNew
    | _, _ => false

/-- Modelled from the spec: `Launcher::RunInstances(services, layers,
instances)` (§4.4).  Duplicate identities are rejected with
`eInvalidArgument` and no effects.  Otherwise the service batch is
installed and the desired set is split per §4.4 step 2: `Unchanged`
instances are left untouched — their stored registry record is kept and
no status event is emitted for them — while every other desired instance
is (re)started and contributes exactly one status; current records absent
from the desired set are stopped and removed, emitting no status
(matching the test's empty batch for the empty round).  The registry
afterwards holds the untouched records plus the started desired records
whose start succeeded. -/
def RunInstances (services : List ServiceInfo) (instances : List InstanceInfo)
    (st : LauncherState) : LauncherState × List InstanceStatus × ErrorEnum :=
  if (instances.map (fun i => i.mInstanceIdent)).Nodup then
    let svcs := InstallServices services
    let toStart := instances.filter
      (fun info => !(Unchanged st.mServices svcs st.mRegistry info))
    let keptOld := st.mRegistry.filter (fun c => instances.any
      (fun info => c.mInstanceIdent == info.mInstanceIdent &&
        Unchanged st.mServices svcs st.mRegistry info))
    (⟨svcs, keptOld ++ toStart.filter (fun info => Resolvable svcs info)⟩,
     toStart.map (fun info => StatusOf svcs info), .eNone)
  else
    (st, [], .eInvalidArgument)

/-- Modelled from the spec: `Launcher::RunLastInstances()` (§4.4)
rehydrates the desired set entirely from the registry and resolves starts
against the already-installed services; records whose start fails are
rolled back out of the registry (§3 lifecycle). -/
def RunLastInstances (st : LauncherState) : LauncherState × List InstanceStatus × ErrorEnum :=
  (⟨st.mServices, st.mRegistry.filter (fun info => Resolvable st.mServices info)⟩,
   st.mRegistry.map (fun info => StatusOf st.mServices info), .eNone)

/-! ## Helper lemmas -/

/-- Lower bound for C-style truncated remainder by a positive divisor. -/
theorem tmod_gt_neg (a : Int) {b : Int} (hb : 0 < b) : -b < a.tmod b := by
  rcases a with m | m
  · have h : 0 ≤ (Int.ofNat m).tmod b := Int.tmod_nonneg b (Int.ofNat_nonneg m)
    omega
  · rcases b with n | n
    · have hb2 : 0 < n := by
        rw [Int.ofNat_eq_coe] at hb
        exact_mod_cast hb
      have heq : (Int.negSucc m).tmod (Int.ofNat n) = -Int.ofNat ((m + 1) % n) := rfl
      have hlt : (m + 1) % n < n := Nat.mod_lt _ hb2
      rw [heq, Int.ofNat_eq_coe, Int.ofNat_eq_coe]
      omega
    · simp at hb

/-! ## C8: Time.Add normalizes the nanosecond field and preserves the total -/

/-- C8: for every `Time` whose nanosecond field is in `[0, 10^9)` and every
duration `d` (positive, zero, or negative), `Time::Add(d)` returns a time
whose nanosecond field is again in `[0, 10^9)` and whose exact total in
nanoseconds `tv_sec * 10^9 + tv_nsec` equals the original total plus `d`. -/
theorem Time_Add_normalized (t : Time) (d : Int)
    (h0 : 0 ≤ t.tv_nsec) (h1 : t.tv_nsec < 1000000000) :
    0 ≤ (t.Add d).tv_nsec ∧ (t.Add d).tv_nsec < 1000000000 ∧
    (t.Add d).tv_sec * 1000000000 + (t.Add d).tv_nsec
      = t.tv_sec * 1000000000 + t.tv_nsec + d := by
  have hS : Seconds = 1000000000 := rfl
  have key := Int.tdiv_add_tmod (t.tv_nsec + d) Seconds
  have hlt := Int.tmod_lt_of_pos (t.tv_nsec + d) (b := Seconds) (by rw [hS]; omega)
  have hgt := tmod_gt_neg (t.tv_nsec + d) (b := Seconds) (by rw [hS]; omega)
  rw [hS] at key hlt hgt
  simp only [Time.Add, hS]
  split <;> simp only [] <;> omega

/-- Witness for C8 at a concrete time and a negative duration crossing two
second boundaries. -/
theorem Time_Add_normalized_witness :
    0 ≤ (Time.mk 1 999999999).tv_nsec ∧ (Time.mk 1 999999999).tv_nsec < 1000000000 ∧
    (0 ≤ ((Time.mk 1 999999999).Add (-2000000001)).tv_nsec ∧
     ((Time.mk 1 999999999).Add (-2000000001)).tv_nsec < 1000000000 ∧
     ((Time.mk 1 999999999).Add (-2000000001)).tv_sec * 1000000000
        + ((Time.mk 1 999999999).Add (-2000000001)).tv_nsec
      = (Time.mk 1 999999999).tv_sec * 1000000000 + (Time.mk 1 999999999).tv_nsec
        + (-2000000001)) :=
  ⟨by decide, by decide,
   Time_Add_normalized ⟨1, 999999999⟩ (-2000000001) (by decide) (by decide)⟩

/-! ## C5, C6: bounded-array PushBack and At -/

/-- C5: `PushBack` on a full array fails with `eNoMemory` leaving size and
contents unchanged; on an array below capacity it succeeds, increments the
size by one, stores the item at the former end, leaves the existing
elements unchanged, and never grows the array past its declared capacity. -/
theorem PushBack_capacity {α : Type} (a : AosArray α) (x : α) :
    (a.mSize = a.MaxSize → a.PushBack x = (a, .eNoMemory)) ∧
    (a.mSize < a.MaxSize →
      (a.PushBack x).2 = .eNone ∧
      (a.PushBack x).1.mSize = a.mSize + 1 ∧
      (a.PushBack x).1.mItems[a.mSize]? = some x ∧
      (∀ i, i < a.mSize → (a.PushBack x).1.mItems[i]? = a.mItems[i]?) ∧
      (a.PushBack x).1.mSize ≤ (a.PushBack x).1.MaxSize) := by
  constructor
  · intro hfull
    simp [AosArray.PushBack, AosArray.IsFull, hfull]
  · intro hlt
    have hne : (a.mSize == a.MaxSize) = false := by
      simp only [beq_eq_false_iff_ne, ne_eq]
      omega
    simp only [AosArray.PushBack, AosArray.IsFull, hne, Bool.false_eq_true, if_false]
    refine ⟨by simp, by simp, ?_, ?_, ?_⟩
    · exact List.getElem?_set_self hlt
    · intro i hi
      exact List.getElem?_set_ne (by omega)
    · simp only [AosArray.MaxSize, List.length_set]
      exact hlt

/-- Witness for C5: one full array and one array below capacity. -/
theorem PushBack_capacity_witness :
    (AosArray.PushBack (⟨[7, 8], 2⟩ : AosArray Nat) 5 = (⟨[7, 8], 2⟩, .eNoMemory)) ∧
    ((AosArray.PushBack (⟨[7, 8], 1⟩ : AosArray Nat) 5).2 = .eNone ∧
     (AosArray.PushBack (⟨[7, 8], 1⟩ : AosArray Nat) 5).1.mSize = 2 ∧
     (AosArray.PushBack (⟨[7, 8], 1⟩ : AosArray Nat) 5).1.mItems[1]? = some 5) :=
  ⟨(PushBack_capacity ⟨[7, 8], 2⟩ 5).1 (by decide),
   ⟨((PushBack_capacity ⟨[7, 8], 1⟩ 5).2 (by decide)).1,
    ((PushBack_capacity ⟨[7, 8], 1⟩ 5).2 (by decide)).2.1,
    ((PushBack_capacity ⟨[7, 8], 1⟩ 5).2 (by decide)).2.2.1⟩⟩

/-- C6: the bounds-checked accessor `At(index)` fails with `eOutOfRange`
whenever `index ≥ mSize`, and otherwise returns the element at `index`
with no error; a successful access never reads outside the current
length. -/
theorem At_bounds {α : Type} (a : AosArray α) (i : Nat) (hwf : a.mSize ≤ a.MaxSize) :
    (i ≥ a.mSize → a.At i = (none, .eOutOfRange)) ∧
    (i < a.mSize →
      (a.At i).2 = .eNone ∧
      ∃ h : i < a.mItems.length, (a.At i).1 = some (a.mItems.get ⟨i, h⟩)) := by
  constructor
  · intro hge
    simp [AosArray.At, hge]
  · intro hlt
    have hib : i < a.mItems.length := by
      simp only [AosArray.MaxSize] at hwf
      omega
    have hnge : ¬ i ≥ a.mSize := by omega
    simp only [AosArray.At, hnge, if_false]
    exact ⟨by simp, hib, by simp [List.getElem?_eq_getElem hib]⟩

/-- Witness for C6: an in-range and an out-of-range access on the same
array. -/
theorem At_bounds_witness :
    (AosArray.At (⟨[7, 8], 1⟩ : AosArray Nat) 1 = (none, .eOutOfRange)) ∧
    ((AosArray.At (⟨[7, 8], 1⟩ : AosArray Nat) 0).2 = .eNone) :=
  ⟨(At_bounds (⟨[7, 8], 1⟩ : AosArray Nat) 1 (by decide)).1 (by decide),
   ((At_bounds (⟨[7, 8], 1⟩ : AosArray Nat) 0 (by decide)).2 (by decide)).1⟩

/-! ## C9, C10: the PopBack and Resize defects, evaluated at failing inputs -/

/-- C9 (code defect): on an empty array the `PopBack` source builds the
`eNotFound` result but misses the `return`, so execution falls through:
the returned error is `eNone` (not `eNotFound`) and `mSize--` wraps the
size to `2^64 - 1` instead of leaving it at zero, with the returned value
read from outside the array's elements. -/
theorem PopBack_empty_eval :
    (AosArray.PopBack (⟨[3], 0⟩ : AosArray Nat)).2.mError = .eNone ∧
    (AosArray.PopBack (⟨[3], 0⟩ : AosArray Nat)).1.mSize = 2 ^ 64 - 1 :=
  ⟨rfl, rfl⟩

/-- C10 (code defect): growing `Resize` writes the fill value only into
the slot at the old size, because the loop body copies to `end()` instead
of the iterator.  At the failing input (size 0, capacity 2, buffer junk
`[0, 0]`, `Resize(2, 5)`) the call succeeds and sets the size, but the
element at position 1 keeps the junk value `0` instead of the fill
value `5`. -/
theorem Resize_fill_eval :
    (AosArray.Resize (⟨[0, 0], 0⟩ : AosArray Nat) 2 5).2 = .eNone ∧
    (AosArray.Resize (⟨[0, 0], 0⟩ : AosArray Nat) 2 5).1.mSize = 2 ∧
    (AosArray.Resize (⟨[0, 0], 0⟩ : AosArray Nat) 2 5).1.mItems[0]? = some 5 ∧
    (AosArray.Resize (⟨[0, 0], 0⟩ : AosArray Nat) 2 5).1.mItems[1]? = some 0 := by
  decide

/-! ## C7: status-batch comparison is identity-keyed set equality -/


/-- The `Array(data, size)` view over a full vector: items. -/
theorem AosArray_ofList_mItems {α : Type} (l : List α) : (AosArray.ofList l).mItems = l := rfl

/-- The `Array(data, size)` view over a full vector: size. -/
theorem AosArray_ofList_mSize {α : Type} (l : List α) : (AosArray.ofList l).mSize = l.length := rfl

/-- `FindStatus` over a full-list view succeeds exactly when some entry of
the list shares the queried entry's identity. -/
theorem FindStatus_isNone_iff (l : List InstanceStatus) (x : InstanceStatus) :
    ((FindStatus (.ofList l) x).2).IsNone = true ↔
      ∃ y ∈ l, y.mInstanceIdent = x.mInstanceIdent := by
  unfold FindStatus AosArray.ofList
  simp only [List.take_length]
  rcases h : l.find? (fun y => InstanceStatus.eq y x) with _ | y
  · rw [List.find?_eq_none] at h
    simp only [ErrorEnum.IsNone, Bool.false_eq_true, false_iff]
    rintro ⟨y, hy, hid⟩
    exact h y hy (by simp [InstanceStatus.eq, hid])
  · have hp := List.find?_some h
    have hm := List.mem_of_find?_eq_some h
    simp only [ErrorEnum.IsNone, true_iff]
    exact ⟨y, hm, by simpa [InstanceStatus.eq] using hp⟩

/-- A batch always compares equal to itself. -/
theorem CompareInstanceStatuses_self (l : List InstanceStatus) :
    CompareInstanceStatuses (.ofList l) (.ofList l) = true := by
  unfold CompareInstanceStatuses
  simp only [AosArray.Size, AosArray_ofList_mItems, AosArray_ofList_mSize,
    decide_eq_true_eq, Bool.and_eq_true, List.take_length, List.all_eq_true]
  refine ⟨⟨by simp, ?_⟩, ?_⟩ <;>
    · intro x hx
      rw [FindStatus_isNone_iff]
      exact ⟨x, hx, rfl⟩

/-- C7: the comparison used by the test deems two status batches equal iff
they have the same number of entries and every entry of each batch has an
identity-matching entry in the other (order-independent); entries
differing only in error or run-state fields never make batches unequal,
since membership is keyed on `InstanceIdent` alone. -/
theorem CompareInstanceStatuses_iff (s1 s2 : List InstanceStatus) :
    CompareInstanceStatuses (.ofList s1) (.ofList s2) = true ↔
      (s1.length = s2.length ∧
       (∀ x ∈ s1, ∃ y ∈ s2, x.mInstanceIdent = y.mInstanceIdent) ∧
       (∀ x ∈ s2, ∃ y ∈ s1, x.mInstanceIdent = y.mInstanceIdent)) := by
  unfold CompareInstanceStatuses
  simp only [AosArray.Size, AosArray_ofList_mItems, AosArray_ofList_mSize,
    Bool.and_eq_true, decide_eq_true_eq, List.take_length, List.all_eq_true]
  constructor
  · rintro ⟨⟨hlen, h1⟩, h2⟩
    refine ⟨hlen, ?_, ?_⟩
    · intro x hx
      obtain ⟨y, hy, hid⟩ := (FindStatus_isNone_iff s2 x).mp (h1 x hx)
      exact ⟨y, hy, hid.symm⟩
    · intro x hx
      obtain ⟨y, hy, hid⟩ := (FindStatus_isNone_iff s1 x).mp (h2 x hx)
      exact ⟨y, hy, hid.symm⟩
  · rintro ⟨hlen, h1, h2⟩
    refine ⟨⟨hlen, ?_⟩, ?_⟩
    · intro x hx
      obtain ⟨y, hy, hid⟩ := h1 x hx
      exact (FindStatus_isNone_iff s2 x).mpr ⟨y, hy, hid.symm⟩
    · intro x hx
      obtain ⟨y, hy, hid⟩ := h2 x hx
      exact (FindStatus_isNone_iff s1 x).mpr ⟨y, hy, hid.symm⟩

/-! ## C1: the instance registry keeps at most one record per identity -/

/-- `ReplaceFirst` finds nothing when no stored record matches. -/
theorem ReplaceFirst_eq_none (inst : InstanceInfo) (st : List InstanceInfo)
    (h : ∀ y ∈ st, y.mInstanceIdent ≠ inst.mInstanceIdent) :
    ReplaceFirst inst st = none := by
  induction st with
  | nil => rfl
  | cons a l ih =>
    have ha : ¬ (inst.mInstanceIdent == a.mInstanceIdent) = true := by
      simp only [beq_iff_eq]
      exact fun he => h a (by simp) he.symm
    rw [ReplaceFirst, if_neg ha, ih (fun y hy => h y (by simp [hy]))]
    rfl

/-- A successful `ReplaceFirst` preserves the stored identity list. -/
theorem ReplaceFirst_map_ident (inst : InstanceInfo) (st st2 : List InstanceInfo)
    (h : ReplaceFirst inst st = some st2) :
    st2.map (fun i => i.mInstanceIdent) = st.map (fun i => i.mInstanceIdent) := by
  induction st generalizing st2 with
  | nil => simp [ReplaceFirst] at h
  | cons a l ih =>
    by_cases hc : (inst.mInstanceIdent == a.mInstanceIdent) = true
    · rw [ReplaceFirst, if_pos hc, Option.some_inj] at h
      subst h
      rw [beq_iff_eq] at hc
      simp [hc]
    · rw [ReplaceFirst, if_neg hc] at h
      rcases h3 : ReplaceFirst inst l with _ | l2 <;> rw [h3] at h
      · simp at h
      · rw [Option.map_some', Option.some_inj] at h
        subst h
        simp [ih l2 h3]

/-- `RemoveFirst` finds nothing when no stored record matches. -/
theorem RemoveFirst_eq_none (ident : InstanceIdent) (st : List InstanceInfo)
    (h : ∀ y ∈ st, y.mInstanceIdent ≠ ident) :
    RemoveFirst ident st = none := by
  induction st with
  | nil => rfl
  | cons a l ih =>
    have ha : ¬ (a.mInstanceIdent == ident) = true := by
      simp only [beq_iff_eq]
      exact h a (by simp)
    rw [RemoveFirst, if_neg ha, ih (fun y hy => h y (by simp [hy]))]
    rfl

/-- A successful `RemoveFirst` yields a sublist of the stored records. -/
theorem RemoveFirst_sublist (ident : InstanceIdent) (st st2 : List InstanceInfo)
    (h : RemoveFirst ident st = some st2) : st2.Sublist st := by
  induction st generalizing st2 with
  | nil => simp [RemoveFirst] at h
  | cons a l ih =>
    by_cases hc : (a.mInstanceIdent == ident) = true
    · rw [RemoveFirst, if_pos hc, Option.some_inj] at h
      subst h
      exact List.sublist_cons_self a l
    · rw [RemoveFirst, if_neg hc] at h
      rcases h3 : RemoveFirst ident l with _ | l2 <;> rw [h3] at h
      · simp at h
      · rw [Option.map_some', Option.some_inj] at h
        subst h
        exact (ih l2 h3).cons₂ a

/-- When a matching record is stored and identities are unique,
`RemoveFirst` removes exactly the records carrying that identity. -/
theorem RemoveFirst_eq_filter (ident : InstanceIdent) (st : List InstanceInfo)
    (hu : RegistryUnique st) (hm : ∃ y ∈ st, y.mInstanceIdent = ident) :
    RemoveFirst ident st = some (st.filter (fun y => !(y.mInstanceIdent == ident))) := by
  induction st with
  | nil => simp at hm
  | cons a l ih =>
    rw [RegistryUnique, List.map_cons, List.nodup_cons] at hu
    by_cases hc : (a.mInstanceIdent == ident) = true
    · have hid := (beq_iff_eq).mp hc
      have hl : l.filter (fun y => !(y.mInstanceIdent == ident)) = l := by
        rw [List.filter_eq_self]
        intro y hy
        simp only [Bool.not_eq_eq_eq_not, Bool.not_true, beq_eq_false_iff_ne, ne_eq]
        intro he
        exact hu.1 (by rw [hid, ← he]; exact List.mem_map_of_mem _ hy)
      rw [RemoveFirst, if_pos hc, List.filter_cons]
      simp [hc, hl]
    · have hm2 : ∃ y ∈ l, y.mInstanceIdent = ident := by
        obtain ⟨y, hy, hid⟩ := hm
        rcases List.mem_cons.mp hy with rfl | hyl
        · exact absurd ((beq_iff_eq).mpr hid) hc
        · exact ⟨y, hyl, hid⟩
      rw [RemoveFirst, if_neg hc, ih hu.2 hm2, Option.map_some', Option.some_inj,
        List.filter_cons]
      rw [if_pos (by simp [hc])]

/-- Uniqueness of stored identities is preserved along every reachable
registry state. -/
theorem ReachableRegistry_unique (st : List InstanceInfo) (h : ReachableRegistry st) :
    RegistryUnique st := by
  induction h with
  | init => simp [RegistryUnique]
  | add st inst _ ih =>
    by_cases hc : (st.any (fun info => inst.mInstanceIdent == info.mInstanceIdent)) = true
    · simpa [AddInstance, hc] using ih
    · simp only [AddInstance, hc, Bool.false_eq_true, if_false]
      rw [RegistryUnique, List.map_append, List.nodup_append]
      refine ⟨ih, by simp, ?_⟩
      intro x hx
      simp only [List.map_cons, List.map_nil, List.mem_singleton]
      rintro rfl
      rw [List.any_eq_true] at hc
      obtain ⟨y, hy, hid⟩ := List.mem_map.mp hx
      exact hc ⟨y, hy, by rw [beq_iff_eq, hid]⟩
  | update st inst _ ih =>
    rcases h2 : ReplaceFirst inst st with _ | st2
    · simpa [UpdateInstance, h2] using ih
    · simp only [UpdateInstance, h2]
      rw [RegistryUnique, ReplaceFirst_map_ident inst st st2 h2]
      exact ih
  | remove st ident _ ih =>
    rcases h2 : RemoveFirst ident st with _ | st2
    · simpa [RemoveInstance, h2] using ih
    · simp only [RemoveInstance, h2]
      exact List.Nodup.sublist
        ((RemoveFirst_sublist ident st st2 h2).map (fun info => info.mInstanceIdent)) ih

/-- C1: at every reachable registry state at most one record exists per
`InstanceIdent`; `AddInstance` fails with `eAlreadyExist` leaving the
stored records unchanged when the identity is present, `UpdateInstance`
and `RemoveInstance` fail with `eNotFound` leaving them unchanged when it
is absent, a successful `AddInstance` appends exactly the given record,
and a successful `RemoveInstance` removes exactly the record with the
given identity. -/
theorem Registry_invariant (st : List InstanceInfo) (h : ReachableRegistry st) :
    RegistryUnique st ∧
    (∀ inst : InstanceInfo, (∃ y ∈ st, y.mInstanceIdent = inst.mInstanceIdent) →
      AddInstance st inst = (st, .eAlreadyExist)) ∧
    (∀ inst : InstanceInfo, (∀ y ∈ st, y.mInstanceIdent ≠ inst.mInstanceIdent) →
      UpdateInstance st inst = (st, .eNotFound)) ∧
    (∀ ident : InstanceIdent, (∀ y ∈ st, y.mInstanceIdent ≠ ident) →
      RemoveInstance st ident = (st, .eNotFound)) ∧
    (∀ inst : InstanceInfo, (∀ y ∈ st, y.mInstanceIdent ≠ inst.mInstanceIdent) →
      AddInstance st inst = (st ++ [inst], .eNone)) ∧
    (∀ ident : InstanceIdent, (∃ y ∈ st, y.mInstanceIdent = ident) →
      RemoveInstance st ident
        = (st.filter (fun y => !(y.mInstanceIdent == ident)), .eNone)) := by
  refine ⟨ReachableRegistry_unique st h, ?_, ?_, ?_, ?_, ?_⟩
  · intro inst hex
    have hc : (st.any (fun info => inst.mInstanceIdent == info.mInstanceIdent)) = true := by
      rw [List.any_eq_true]
      obtain ⟨y, hy, hid⟩ := hex
      exact ⟨y, hy, by rw [beq_iff_eq, hid]⟩
    simp [AddInstance, hc]
  · intro inst hab
    rw [UpdateInstance, ReplaceFirst_eq_none inst st hab]
  · intro ident hab
    rw [RemoveInstance, RemoveFirst_eq_none ident st hab]
  · intro inst hab
    have hc : ¬ (st.any (fun info => inst.mInstanceIdent == info.mInstanceIdent)) = true := by
      rw [List.any_eq_true]
      rintro ⟨y, hy, hid⟩
      exact hab y hy ((beq_iff_eq).mp hid).symm
    rw [AddInstance, if_neg hc]
  · intro ident hex
    rw [RemoveInstance, RemoveFirst_eq_filter ident st (ReachableRegistry_unique st h) hex]

/-- Witness for C1 at the singleton reachable state: re-adding the stored
identity is refused with `eAlreadyExist` and leaves the record intact. -/
theorem Registry_invariant_witness :
    AddInstance [⟨⟨"service1", "subject1", 0⟩, 0, 0, "", ""⟩]
        ⟨⟨"service1", "subject1", 0⟩, 1, 1, "s", "t"⟩
      = ([⟨⟨"service1", "subject1", 0⟩, 0, 0, "", ""⟩], .eAlreadyExist) :=
  (Registry_invariant [⟨⟨"service1", "subject1", 0⟩, 0, 0, "", ""⟩]
      (ReachableRegistry.add [] ⟨⟨"service1", "subject1", 0⟩, 0, 0, "", ""⟩
        ReachableRegistry.init)).2.1
    ⟨⟨"service1", "subject1", 0⟩, 1, 1, "s", "t"⟩
    ⟨⟨⟨"service1", "subject1", 0⟩, 0, 0, "", ""⟩, by simp, rfl⟩

/-! ## C2, C3, C4: reconciliation rounds -/

/-- Installing a single service makes it resolvable for every instance
bound to its service id, at exactly the installed version data. -/
theorem GetService_single (svc : ServiceInfo) :
    GetService (InstallServices [svc]) svc.mServiceID
      = some ⟨svc.mVersionInfo, svc.mServiceID, svc.mProviderID,
          JoinPath "/aos/storages" svc.mServiceID⟩ := by
  simp [GetService, InstallServices, List.find?]

/-- C2: starting from an empty registry, submitting N instances bound to
one newly-installed service yields an error-free round whose delivered
batch holds exactly one `eActive` status per submitted `InstanceIdent`,
each carrying the installed service's version id, and leaves the registry
holding exactly the N submitted records. -/
theorem RunInstances_additive (svc : ServiceInfo) (instances : List InstanceInfo)
    (st0 : LauncherState) (hreg : st0.mRegistry = [])
    (hbind : ∀ info ∈ instances, info.mInstanceIdent.mServiceID = svc.mServiceID)
    (hnodup : (instances.map (fun i => i.mInstanceIdent)).Nodup) :
    (RunInstances [svc] instances st0).2.2 = .eNone ∧
    (RunInstances [svc] instances st0).2.1
      = instances.map (fun info =>
          ⟨info.mInstanceIdent, svc.mVersionInfo.mVersionID, .eActive, .eNone⟩) ∧
    (RunInstances [svc] instances st0).1.mRegistry = instances := by
  have hres : ∀ info ∈ instances,
      GetService (InstallServices [svc]) info.mInstanceIdent.mServiceID
        = some ⟨svc.mVersionInfo, svc.mServiceID, svc.mProviderID,
            JoinPath "/aos/storages" svc.mServiceID⟩ := by
    intro info hi
    rw [hbind info hi]
    exact GetService_single svc
  have htostart : instances.filter
      (fun info => !(Unchanged st0.mServices (InstallServices [svc]) st0.mRegistry info))
        = instances := by
    rw [List.filter_eq_self]
    intro info _
    rw [hreg]
    rfl
  rw [RunInstances, if_pos hnodup]
  refine ⟨rfl, ?_, ?_⟩
  · show (instances.filter _).map _ = _
    rw [htostart]
    apply List.map_congr_left
    intro info hi
    rw [StatusOf, hres info hi]
  · show st0.mRegistry.filter _ ++ (instances.filter _).filter _ = instances
    rw [htostart, hreg, List.filter_nil, List.nil_append, List.filter_eq_self]
    intro info hi
    rw [Resolvable, hres info hi]
    rfl

/-- Witness for C2 at the reference scenario: three instances of
`(service1, subject1)` bound to `service1` at version 1 yield a batch of
three `eActive` statuses at version 1 and a registry holding exactly those
three records. -/
theorem RunInstances_additive_witness :
    (RunInstances [⟨⟨1, "1.0", ""⟩, "service1", "provider1"⟩]
        [⟨⟨"service1", "subject1", 0⟩, 0, 0, "", ""⟩,
         ⟨⟨"service1", "subject1", 1⟩, 0, 0, "", ""⟩,
         ⟨⟨"service1", "subject1", 2⟩, 0, 0, "", ""⟩] ⟨[], []⟩).2.2 = .eNone ∧
    (RunInstances [⟨⟨1, "1.0", ""⟩, "service1", "provider1"⟩]
        [⟨⟨"service1", "subject1", 0⟩, 0, 0, "", ""⟩,
         ⟨⟨"service1", "subject1", 1⟩, 0, 0, "", ""⟩,
         ⟨⟨"service1", "subject1", 2⟩, 0, 0, "", ""⟩] ⟨[], []⟩).2.1
      = [⟨⟨"service1", "subject1", 0⟩, 1, .eActive, .eNone⟩,
         ⟨⟨"service1", "subject1", 1⟩, 1, .eActive, .eNone⟩,
         ⟨⟨"service1", "subject1", 2⟩, 1, .eActive, .eNone⟩] ∧
    (RunInstances [⟨⟨1, "1.0", ""⟩, "service1", "provider1"⟩]
        [⟨⟨"service1", "subject1", 0⟩, 0, 0, "", ""⟩,
         ⟨⟨"service1", "subject1", 1⟩, 0, 0, "", ""⟩,
         ⟨⟨"service1", "subject1", 2⟩, 0, 0, "", ""⟩] ⟨[], []⟩).1.mRegistry
      = [⟨⟨"service1", "subject1", 0⟩, 0, 0, "", ""⟩,
         ⟨⟨"service1", "subject1", 1⟩, 0, 0, "", ""⟩,
         ⟨⟨"service1", "subject1", 2⟩, 0, 0, "", ""⟩] := by
  have h := RunInstances_additive ⟨⟨1, "1.0", ""⟩, "service1", "provider1"⟩
    [⟨⟨"service1", "subject1", 0⟩, 0, 0, "", ""⟩,
     ⟨⟨"service1", "subject1", 1⟩, 0, 0, "", ""⟩,
     ⟨⟨"service1", "subject1", 2⟩, 0, 0, "", ""⟩] ⟨[], []⟩
    rfl (by decide) (by decide)
  exact ⟨h.1, by rw [h.2.1]; rfl, h.2.2⟩

/-- Counterexample to C3 as stated: a successful round (no error, every
delivered status `eActive` — vacuously, since the batch is empty) that
resubmits an instance already in the registry at an identical bound
service version.  The instance is `Unchanged`, so the round emits no
status for it (§4.4 step 2) while its record stays in the registry;
`RunLastInstances` then emits one status for it, so the two batches
differ in size and the identity-keyed comparison rejects them. -/
theorem RunLastInstances_reproduces_counterexample :
    (RunInstances [⟨⟨1, "1.0", ""⟩, "service1", "provider1"⟩]
        [⟨⟨"service1", "subject1", 0⟩, 0, 0, "", ""⟩]
        (RunInstances [⟨⟨1, "1.0", ""⟩, "service1", "provider1"⟩]
          [⟨⟨"service1", "subject1", 0⟩, 0, 0, "", ""⟩] ⟨[], []⟩).1).2.2 = .eNone ∧
    (∀ s ∈ (RunInstances [⟨⟨1, "1.0", ""⟩, "service1", "provider1"⟩]
        [⟨⟨"service1", "subject1", 0⟩, 0, 0, "", ""⟩]
        (RunInstances [⟨⟨1, "1.0", ""⟩, "service1", "provider1"⟩]
          [⟨⟨"service1", "subject1", 0⟩, 0, 0, "", ""⟩] ⟨[], []⟩).1).2.1,
      s.mRunState = .eActive) ∧
    CompareInstanceStatuses
      (.ofList (RunLastInstances
        (RunInstances [⟨⟨1, "1.0", ""⟩, "service1", "provider1"⟩]
          [⟨⟨"service1", "subject1", 0⟩, 0, 0, "", ""⟩]
          (RunInstances [⟨⟨1, "1.0", ""⟩, "service1", "provider1"⟩]
            [⟨⟨"service1", "subject1", 0⟩, 0, 0, "", ""⟩] ⟨[], []⟩).1).1).2.1)
      (.ofList (RunInstances [⟨⟨1, "1.0", ""⟩, "service1", "provider1"⟩]
          [⟨⟨"service1", "subject1", 0⟩, 0, 0, "", ""⟩]
          (RunInstances [⟨⟨1, "1.0", ""⟩, "service1", "provider1"⟩]
            [⟨⟨"service1", "subject1", 0⟩, 0, 0, "", ""⟩] ⟨[], []⟩).1).2.1)
      = false := by
  decide

/-- C3 (amended): after a successful `RunInstances` round (no error and
every delivered status `eActive`) in which every submitted instance was
actually (re)started — none was skipped as `Unchanged`, i.e. none was
already present in the registry at an identical bound service version —
`RunLastInstances` with no new input delivers a status batch that the
identity-keyed comparison deems equal to the last round's batch: the
registry alone determines the rehydrated set. -/
theorem RunLastInstances_reproduces (services : List ServiceInfo)
    (instances : List InstanceInfo) (st0 : LauncherState)
    (hok : (RunInstances services instances st0).2.2 = .eNone)
    (hactive : ∀ s ∈ (RunInstances services instances st0).2.1,
      s.mRunState = .eActive)
    (hstarted : ∀ info ∈ instances,
      Unchanged st0.mServices (InstallServices services) st0.mRegistry info
        = false) :
    CompareInstanceStatuses
      (.ofList (RunLastInstances (RunInstances services instances st0).1).2.1)
      (.ofList (RunInstances services instances st0).2.1) = true := by
  by_cases hnd : (instances.map (fun i => i.mInstanceIdent)).Nodup
  · have htostart : instances.filter
        (fun info =>
          !(Unchanged st0.mServices (InstallServices services) st0.mRegistry info))
          = instances := by
      rw [List.filter_eq_self]
      intro info hi
      rw [hstarted info hi]
      rfl
    have hkept : st0.mRegistry.filter (fun c => instances.any
        (fun info => c.mInstanceIdent == info.mInstanceIdent &&
          Unchanged st0.mServices (InstallServices services) st0.mRegistry info))
          = [] := by
      rw [List.filter_eq_nil_iff]
      intro c _
      rw [List.any_eq_true]
      rintro ⟨info, hi, hb⟩
      rw [Bool.and_eq_true] at hb
      rw [hstarted info hi] at hb
      exact absurd hb.2 (by simp)
    have hrun : (RunInstances services instances st0).2.1
        = instances.map (fun info => StatusOf (InstallServices services) info) := by
      rw [RunInstances, if_pos hnd]
      show (instances.filter _).map _ = _
      rw [htostart]
    have hres : ∀ info ∈ instances,
        Resolvable (InstallServices services) info = true := by
      intro info hi
      by_contra hnr
      have hs := hactive (StatusOf (InstallServices services) info)
        (by rw [hrun]; exact List.mem_map_of_mem _ hi)
      rw [StatusOf] at hs
      rcases hg : GetService (InstallServices services) info.mInstanceIdent.mServiceID
        with _ | s
      · rw [hg] at hs
        simp at hs
      · exact hnr (by rw [Resolvable, hg]; rfl)
    have hreg2 : (RunInstances services instances st0).1
        = ⟨InstallServices services, instances⟩ := by
      rw [RunInstances, if_pos hnd]
      show (⟨_, st0.mRegistry.filter _ ++ (instances.filter _).filter _⟩ : LauncherState)
        = _
      rw [htostart, hkept, List.nil_append, List.filter_eq_self.mpr hres]
    have hlast : (RunLastInstances
          (⟨InstallServices services, instances⟩ : LauncherState)).2.1
        = instances.map (fun info => StatusOf (InstallServices services) info) := rfl
    rw [hrun, hreg2, hlast]
    exact CompareInstanceStatuses_self _
  · rw [RunInstances, if_neg hnd] at hok
    simp at hok

/-- Witness for the amended C3 at the reference scenario's final round:
every submitted instance is freshly started from an empty registry, and
rehydrating from the registry reproduces the batch of that round. -/
theorem RunLastInstances_reproduces_witness :
    CompareInstanceStatuses
      (.ofList (RunLastInstances
        (RunInstances [⟨⟨2, "1.0", ""⟩, "service1", "provider1"⟩]
          [⟨⟨"service1", "subject1", 4⟩, 0, 0, "", ""⟩,
           ⟨⟨"service1", "subject1", 5⟩, 0, 0, "", ""⟩,
           ⟨⟨"service1", "subject1", 6⟩, 0, 0, "", ""⟩] ⟨[], []⟩).1).2.1)
      (.ofList (RunInstances [⟨⟨2, "1.0", ""⟩, "service1", "provider1"⟩]
          [⟨⟨"service1", "subject1", 4⟩, 0, 0, "", ""⟩,
           ⟨⟨"service1", "subject1", 5⟩, 0, 0, "", ""⟩,
           ⟨⟨"service1", "subject1", 6⟩, 0, 0, "", ""⟩] ⟨[], []⟩).2.1) = true :=
  RunLastInstances_reproduces [⟨⟨2, "1.0", ""⟩, "service1", "provider1"⟩]
    [⟨⟨"service1", "subject1", 4⟩, 0, 0, "", ""⟩,
     ⟨⟨"service1", "subject1", 5⟩, 0, 0, "", ""⟩,
     ⟨⟨"service1", "subject1", 6⟩, 0, 0, "", ""⟩] ⟨[], []⟩
    (by decide) (by decide) (by decide)

/-- C4: `RunLastInstances` on a registry holding no instance records
returns no error and delivers exactly the empty status batch, leaving the
state unchanged. -/
theorem RunLastInstances_empty (st : LauncherState) (hreg : st.mRegistry = []) :
    RunLastInstances st = (st, [], .eNone) := by
  obtain ⟨svcs, reg⟩ := st
  simp only [LauncherState.mRegistry] at hreg
  subst hreg
  rfl

/-- Witness for C4 at the empty launcher state. -/
theorem RunLastInstances_empty_witness :
    RunLastInstances ⟨[⟨⟨1, "1.0", ""⟩, "service1", "provider1",
        "/aos/storages/service1"⟩], []⟩
      = (⟨[⟨⟨1, "1.0", ""⟩, "service1", "provider1", "/aos/storages/service1"⟩], []⟩,
         [], .eNone) :=
  RunLastInstances_empty
    ⟨[⟨⟨1, "1.0", ""⟩, "service1", "provider1", "/aos/storages/service1"⟩], []⟩ rfl
